import Mathlib

/-!
Verification of the go-metis repository (Go bindings for the METIS graph
partitioning library) against its natural-language specification.

The repository's own code consists of: the CSR `Graph` model, edge-cut and
balance calculators and the text-format reader (part_001), the cgo wrapper
functions around the METIS C entry points (part_004), and the test-side
verification routines (part_002).  The multilevel partitioning engine itself
is the external METIS C library and is not part of the repository's sources;
where a property is decided by that engine, the engine's guarantee is
modelled from the specification (definitions marked `Modelled from the
spec:`), and the wrapper code around it is embedded faithfully from the Go
source.

Machine integers (`int32` in Go) are modelled as unbounded `Int`; overflow
is not tracked, as no property considered here hinges on wraparound.
Go's truncating integer division is `Int.tdiv`.  Out-of-range slice reads,
which panic in Go, are modelled with `List.getD` defaults; all properties
are stated under hypotheses keeping indices in range.
-/

set_option linter.unusedVariables false

namespace GoMetis

/-- Errors produced by the Go wrappers: the three METIS status codes mapped
by `getError`, an unknown status code, and the wrapper's own
`errors.New` validation errors (carrying the Go message). -/
inductive MetisError where
  | input
  | memory
  | general
  | unknown (code : Int)
  | invalidArg (msg : String)
deriving DecidableEq

/-- `METIS_ERROR_INPUT` (value from the METIS 5 header, outside the repository). -/
def ErrorInput : Int := -2

/-- `METIS_ERROR_MEMORY`. -/
def ErrorMemory : Int := -3

/-- `METIS_ERROR` (general error). -/
def Error : Int := -4

/-- Embeds `getError` (part_004): converts METIS error codes to Go errors. -/
def getError (status : Int) : MetisError :=
  if status = ErrorInput then .input
  else if status = ErrorMemory then .memory
  else if status = Error then .general
  else .unknown status

/-- Outcome of one call into the METIS C library: either the output values
the C function wrote, or a status code different from `METIS_OK`.  The C
engine is outside the repository, so a call is modelled as an opaque outcome
supplied to the wrapper. -/
inductive COutcome (α : Type) where
  | ok (val : α)
  | err (status : Int)

/-- Embeds the `Graph` struct (part_001): CSR adjacency with optional
vertex and edge weights (`nil` slices become `none`). -/
structure Graph where
  Xadj : List Int
  Adjncy : List Int
  Vwgt : Option (List Int)
  Adjwgt : Option (List Int)
deriving DecidableEq

/-- Embeds `NewGraph` (part_001): wraps the two arrays with no validation,
leaving the weight fields nil. -/
def NewGraph (xadj adjncy : List Int) : Graph :=
  { Xadj := xadj, Adjncy := adjncy, Vwgt := none, Adjwgt := none }

/-- Embeds `Graph.NumVertices` (part_001): `len(g.Xadj) - 1`. -/
def Graph.NumVertices (g : Graph) : Nat :=
  g.Xadj.length - 1

/-- Embeds `Graph.Degree` (part_001): `g.Xadj[v+1] - g.Xadj[v]`. -/
def Graph.Degree (g : Graph) (v : Nat) : Int :=
  g.Xadj.getD (v + 1) 0 - g.Xadj.getD v 0

/-- Number of vertices encoded by a raw `xadj` array: `len(xadj) - 1`. -/
def nvtxsOf (xadj : List Int) : Nat :=
  xadj.length - 1

/-- Vertex weight lookup with the source's convention: weight 1 when the
`vwgt` slice is nil (part_001 `CalculateEdgeCut` / part_002 `verifyPart`). -/
def vwgtAt (vwgt : Option (List Int)) (i : Nat) : Int :=
  match vwgt with
  | some w => w.getD i 0
  | none => 1

/-- Edge weight lookup: `adjwgt[j]`, or 1 when `adjwgt` is nil. -/
def adjwgtAt (adjwgt : Option (List Int)) (j : Nat) : Int :=
  match adjwgt with
  | some w => w.getD j 0
  | none => 1

/-- The double loop shared by `CalculateEdgeCut` (part_001) and the cut
check of `verifyPart` (part_002): for every vertex `i` and every adjacency
position `j` in `[xadj[i], xadj[i+1])` whose endpoint lies in a different
part, accumulate the edge weight.  Each undirected edge contributes from
both endpoints. -/
def dirCut (xadj adjncy : List Int) (adjwgt : Option (List Int)) (part : List Int) : Int :=
  (List.range (nvtxsOf xadj)).foldl
    (fun acc i =>
      let s := (xadj.getD i 0).toNat
      let e := (xadj.getD (i + 1) 0).toNat
      (List.range' s (e - s)).foldl
        (fun a j =>
          if part.getD i 0 ≠ part.getD (adjncy.getD j 0).toNat 0 then
            a + adjwgtAt adjwgt j
          else a)
        acc)
    0

/-- Embeds `CalculateEdgeCut` (part_001): the directed crossing-weight sum
divided by 2 (`edgeCut / 2`, Go truncating division), since each edge is
counted from both endpoints. -/
def CalculateEdgeCut (g : Graph) (part : List Int) : Int :=
  Int.tdiv (dirCut g.Xadj g.Adjncy g.Adjwgt part) 2

/-- The weight of part `p` under a partition: sum of `vwgt[i]` (1 when nil)
over the vertices assigned to `p` (the `pwgts` accumulation of
`verifyPart`, part_002). -/
def pwgt (xadj : List Int) (vwgt : Option (List Int)) (part : List Int) (p : Int) : Int :=
  (List.range (nvtxsOf xadj)).foldl
    (fun a i => if part.getD i 0 = p then a + vwgtAt vwgt i else a) 0

/-- Total weight as `verifyPart` computes it: the sum of the `nparts`
per-part weights. -/
def totalPwgt (xadj : List Int) (vwgt : Option (List Int)) (part : List Int) (nparts : Int) : Int :=
  (List.range nparts.toNat).foldl (fun a p => a + pwgt xadj vwgt part (p : Int)) 0

/-- Maximum per-part weight over the `nparts` parts (the `maxWgt` fold of
`verifyPart`, part_002; weights are nonnegative in every intended use, so
starting the fold at 0 matches the Go loop). -/
def maxPwgt (xadj : List Int) (vwgt : Option (List Int)) (part : List Int) (nparts : Int) : Int :=
  (List.range nparts.toNat).foldl (fun m p => max m (pwgt xadj vwgt part (p : Int))) 0

/-- The balance factor of `verifyPart` (part_002): 1.10 by default, 1.20
when `nparts >= 16`; represented by its numerator over denominator 10. -/
def balanceFactorNum (nparts : Int) : Int :=
  if 16 ≤ nparts then 12 else 11

/-- The load-imbalance tolerance of the specification: 0.10 by default,
0.20 when `nparts >= 16`. -/
def tolerance (nparts : Int) : ℚ :=
  if 16 ≤ nparts then 2 / 10 else 1 / 10

/-! ## The text-format graph reader (part_001 `ReadGraphFile`)

The reader is embedded over pre-tokenized input: a file is a list of lines,
each line the list of integer fields on it (a blank line is `[]`).
Whitespace splitting and decimal parsing by `strconv.Atoi` are the
collaborator details abstracted away; every integer field is assumed to
parse, which is the case on the inputs considered. -/

/-- Embeds the per-line adjacency parse of `ReadGraphFile` (part_001): the
fields after the optional vertex weight alternate neighbor / edge weight
when edge weights are present, and neighbors are converted to 0-based ids
(`v - 1`).  Returns the parsed neighbor list and edge-weight list. -/
def parseAdjFields (hasEdgeWeights : Bool) : List Int → List Int × List Int
  | [] => ([], [])
  | v :: rest =>
    if hasEdgeWeights then
      match rest with
      | [] => ([v - 1], [])
      | w :: rest' =>
        let (a, aw) := parseAdjFields hasEdgeWeights rest'
        ((v - 1) :: a, w :: aw)
    else
      let (a, aw) := parseAdjFields hasEdgeWeights rest
      ((v - 1) :: a, aw)

/-- Embeds the vertex-line loop of `ReadGraphFile` (part_001): for each
vertex `i` read one line; a blank line is skipped with `continue`, leaving
`xadj[i+1]` at its zero initial value; otherwise the optional vertex weight
and the adjacency fields are appended and `xadj[i+1]` is set to the current
length of `adjncy`. -/
def readVertices (hasV hasE : Bool) :
    Nat → Nat → List (List Int) → List Int → List Int → List Int → List Int →
    Except String (List Int × List Int × List Int × List Int)
  | _, 0, _, xadj, adjncy, vwgt, adjwgt => .ok (xadj, adjncy, vwgt, adjwgt)
  | i, k + 1, lines, xadj, adjncy, vwgt, adjwgt =>
    match lines with
    | [] => .error "unexpected EOF"
    | fields :: restLines =>
      if fields.isEmpty then
        readVertices hasV hasE (i + 1) k restLines xadj adjncy vwgt adjwgt
      else
        let vw := if hasV then fields.getD 0 0 else 0
        let adjFields := if hasV then fields.drop 1 else fields
        let vwgt' := if hasV then vwgt ++ [vw] else vwgt
        let (a, aw) := parseAdjFields hasE adjFields
        let adjncy' := adjncy ++ a
        let adjwgt' := adjwgt ++ aw
        let xadj' := xadj.set (i + 1) (adjncy'.length : Int)
        readVertices hasV hasE (i + 1) k restLines xadj' adjncy' vwgt' adjwgt'

/-- Embeds `ReadGraphFile` (part_001) over pre-tokenized lines: header
`<nvtxs> <nedges> [fmt] [ncon]`, where `fmt`'s two decimal digits flag
vertex / edge weights, then one line per vertex.  `xadj` starts as a zero
array of length `nvtxs + 1`. -/
def ReadGraphFile (lines : List (List Int)) : Except String Graph :=
  match lines with
  | [] => .error "empty file"
  | header :: rest =>
    if header.length < 2 then .error "invalid header"
    else
      let nvtxs := (header.getD 0 0).toNat
      let fmtFlags := if 3 ≤ header.length then header.getD 2 0 else 0
      let hasV : Bool := (fmtFlags / 10) % 10 = 1
      let hasE : Bool := fmtFlags % 10 = 1
      match readVertices hasV hasE 0 nvtxs rest
          (List.replicate (nvtxs + 1) 0) [] [] [] with
      | .error e => .error e
      | .ok (xadj, adjncy, vwgt, adjwgt) =>
        .ok { Xadj := xadj, Adjncy := adjncy,
              Vwgt := if hasV then some vwgt else none,
              Adjwgt := if hasE then some adjwgt else none }

/-! ## The cgo wrapper functions (part_004)

Each Go wrapper allocates output slices, invokes one METIS C entry point,
and either returns the outputs or maps the non-OK status through `getError`
and returns nil slices and zero scalars.  The C call itself is the opaque
`COutcome` argument (or, where the wrapper chooses which arguments reach
the C library, a function from those arguments to an outcome).  The
`options` array is forwarded to the C engine unchanged and therefore lives
inside the modelled outcome. -/

/-- Return value of the four `PartGraph*` wrappers: `([]int32, int32, error)`
with `nil` slices as `none`. -/
structure PartResult where
  part : Option (List Int)
  objval : Int
  err : Option MetisError
deriving DecidableEq

/-- Return value of `PartMeshNodal` / `PartMeshDual`:
`(int32, []int32, []int32, error)`. -/
structure MeshPartResult where
  objval : Int
  epart : Option (List Int)
  npart : Option (List Int)
  err : Option MetisError
deriving DecidableEq

/-- Return value of `NodeND`: `([]int32, []int32, error)`. -/
structure NDResult where
  perm : Option (List Int)
  iperm : Option (List Int)
  err : Option MetisError
deriving DecidableEq

/-- Return value of `ComputeVertexSeparator`: `(int32, []int32, error)`. -/
structure SepResult where
  sepsize : Int
  part : Option (List Int)
  err : Option MetisError
deriving DecidableEq

/-- Return value of `MeshToDual` / `MeshToNodal`:
`([]int32, []int32, error)`. -/
structure MeshGraphResult where
  xadj : Option (List Int)
  adjncy : Option (List Int)
  err : Option MetisError
deriving DecidableEq

/-- Embeds `PartGraphRecursive` (part_004): calls
`METIS_PartGraphRecursive` with nil weights; on a non-OK status returns
`(nil, 0, getError(ret))`, otherwise the partition and objective. -/
def PartGraphRecursive (xadj adjncy : List Int) (nparts : Int)
    (ccall : COutcome (List Int × Int)) : PartResult :=
  match ccall with
  | .err status => { part := none, objval := 0, err := some (getError status) }
  | .ok (part, objval) => { part := some part, objval := objval, err := none }

/-- Embeds `PartGraphKway` (part_004): identical wrapper logic around
`METIS_PartGraphKway`. -/
def PartGraphKway (xadj adjncy : List Int) (nparts : Int)
    (ccall : COutcome (List Int × Int)) : PartResult :=
  match ccall with
  | .err status => { part := none, objval := 0, err := some (getError status) }
  | .ok (part, objval) => { part := some part, objval := objval, err := none }

/-- The weight-length validation shared by the two weighted wrappers
(part_004): a non-nil `vwgt` must have length `len(xadj) - 1`. -/
def vwgtLenBad (xadj : List Int) (vwgt : Option (List Int)) : Bool :=
  match vwgt with
  | some w => decide ((w.length : Int) ≠ (xadj.length : Int) - 1)
  | none => false

/-- A non-nil `adjwgt` must have length `len(adjncy)` (part_004). -/
def adjwgtLenBad (adjncy : List Int) (adjwgt : Option (List Int)) : Bool :=
  match adjwgt with
  | some w => decide (w.length ≠ adjncy.length)
  | none => false

/-- Embeds `PartGraphRecursiveWeighted` (part_004): validates the weight
array lengths before the C call, then behaves as the unweighted wrapper. -/
def PartGraphRecursiveWeighted (xadj adjncy : List Int)
    (vwgt adjwgt : Option (List Int)) (nparts : Int)
    (ccall : COutcome (List Int × Int)) : PartResult :=
  if vwgtLenBad xadj vwgt then
    { part := none, objval := 0,
      err := some (.invalidArg "vwgt length must equal number of vertices") }
  else if adjwgtLenBad adjncy adjwgt then
    { part := none, objval := 0,
      err := some (.invalidArg "adjwgt length must equal adjncy length") }
  else
    match ccall with
    | .err status => { part := none, objval := 0, err := some (getError status) }
    | .ok (part, objval) => { part := some part, objval := objval, err := none }

/-- Embeds `PartGraphKwayWeighted` (part_004): same validation and wrapper
logic around `METIS_PartGraphKway`. -/
def PartGraphKwayWeighted (xadj adjncy : List Int)
    (vwgt adjwgt : Option (List Int)) (nparts : Int)
    (ccall : COutcome (List Int × Int)) : PartResult :=
  if vwgtLenBad xadj vwgt then
    { part := none, objval := 0,
      err := some (.invalidArg "vwgt length must equal number of vertices") }
  else if adjwgtLenBad adjncy adjwgt then
    { part := none, objval := 0,
      err := some (.invalidArg "adjwgt length must equal adjncy length") }
  else
    match ccall with
    | .err status => { part := none, objval := 0, err := some (getError status) }
    | .ok (part, objval) => { part := some part, objval := objval, err := none }

/-- Embeds `PartMeshNodal` (part_004): on a non-OK status returns
`(0, nil, nil, getError(ret))`, otherwise the objective and the element and
node partitions written by the C library. -/
def PartMeshNodal (ne nn : Int) (eptr eind : List Int)
    (vwgt vsize : Option (List Int)) (nparts : Int)
    (ccall : COutcome (Int × List Int × List Int)) : MeshPartResult :=
  match ccall with
  | .err status => { objval := 0, epart := none, npart := none, err := some (getError status) }
  | .ok (objval, epart, npart) =>
    { objval := objval, epart := some epart, npart := some npart, err := none }

/-- Embeds `PartMeshDual` (part_004): same wrapper logic around
`METIS_PartMeshDual`. -/
def PartMeshDual (ne nn : Int) (eptr eind : List Int)
    (vwgt vsize : Option (List Int)) (ncommon nparts : Int)
    (ccall : COutcome (Int × List Int × List Int)) : MeshPartResult :=
  match ccall with
  | .err status => { objval := 0, epart := none, npart := none, err := some (getError status) }
  | .ok (objval, epart, npart) =>
    { objval := objval, epart := some epart, npart := some npart, err := none }

/-- Embeds `MeshToDual` (part_004): on success copies the C-allocated
`xadj` and `adjncy` arrays into Go slices, on a non-OK status returns
`(nil, nil, getError(ret))`. -/
def MeshToDual (ne nn : Int) (eptr eind : List Int) (ncommon : Int)
    (ccall : COutcome (List Int × List Int)) : MeshGraphResult :=
  match ccall with
  | .err status => { xadj := none, adjncy := none, err := some (getError status) }
  | .ok (xadj, adjncy) => { xadj := some xadj, adjncy := some adjncy, err := none }

/-- Embeds `MeshToNodal` (part_004): same wrapper logic around
`METIS_MeshToNodal`. -/
def MeshToNodal (ne nn : Int) (eptr eind : List Int)
    (ccall : COutcome (List Int × List Int)) : MeshGraphResult :=
  match ccall with
  | .err status => { xadj := none, adjncy := none, err := some (getError status) }
  | .ok (xadj, adjncy) => { xadj := some xadj, adjncy := some adjncy, err := none }

/-- The vertex-weight argument that `NodeND` and `ComputeVertexSeparator`
actually pass to the C library (part_004): a non-nil `vwgt` is forwarded
only when its length equals `len(xadj) - 1`; otherwise the C call receives
a nil pointer, with no error raised. -/
def effectiveVwgt (xadj : List Int) (vwgt : Option (List Int)) : Option (List Int) :=
  match vwgt with
  | some w => if (w.length : Int) = (xadj.length : Int) - 1 then some w else none
  | none => none

/-- Embeds `NodeND` (part_004): forwards the effective vertex weights to
`METIS_NodeND` (modelled as a function from that argument to an outcome);
on a non-OK status returns `(nil, nil, getError(ret))`. -/
def NodeND (xadj adjncy : List Int) (vwgt : Option (List Int))
    (engine : Option (List Int) → COutcome (List Int × List Int)) : NDResult :=
  match engine (effectiveVwgt xadj vwgt) with
  | .err status => { perm := none, iperm := none, err := some (getError status) }
  | .ok (perm, iperm) => { perm := some perm, iperm := some iperm, err := none }

/-- Embeds `ComputeVertexSeparator` (part_004): forwards the effective
vertex weights to `METIS_ComputeVertexSeparator`; on a non-OK status
returns `(0, nil, getError(ret))`. -/
def ComputeVertexSeparator (xadj adjncy : List Int) (vwgt : Option (List Int))
    (engine : Option (List Int) → COutcome (Int × List Int)) : SepResult :=
  match engine (effectiveVwgt xadj vwgt) with
  | .err status => { sepsize := 0, part := none, err := some (getError status) }
  | .ok (sepsize, part) => { sepsize := sepsize, part := some part, err := none }

/-! ## Modelled guarantees of the METIS C engine

The multilevel partitioning engine is the METIS C library, which is not
part of this repository; only its callers (part_004) and its test-side
verification (part_002 `verifyPart`, `verifyND`, `TestComputeVertexSeparator`)
are.  The engine's guarantees on a successful cut-objective run are
modelled from the specification (sections 4.6, 7 and 8) in the exact form
the in-repository verification routines check them. -/

/-- Modelled from the spec: the guarantee of the METIS partitioning engine
(`METIS_PartGraphRecursive` / `METIS_PartGraphKway`, absent from the
repository) on a successful cut-objective run with uniform target
fractions, in the form checked by `verifyPart` (part_002) and section 8 of
the specification: `nparts ≥ 1`; the partition vector has one entry per
vertex, each in `[0, nparts)`; when `n ≥ 2·nparts` every part is used; the
directed crossing-weight sum equals twice the returned objective; and
`nparts · max_part_weight ≤ balanceFactor · total_weight` (the float
comparison of `verifyPart` taken as an exact rational with denominators
cleared). -/
def SpecEngineOK (xadj adjncy : List Int) (vwgt adjwgt : Option (List Int))
    (nparts : Int) (part : List Int) (objval : Int) : Prop :=
  1 ≤ nparts ∧
  part.length = nvtxsOf xadj ∧
  (∀ i < nvtxsOf xadj, 0 ≤ part.getD i 0 ∧ part.getD i 0 < nparts) ∧
  (2 * nparts ≤ (nvtxsOf xadj : Int) →
    ∀ p < nparts.toNat, ∃ i < nvtxsOf xadj, part.getD i 0 = (p : Int)) ∧
  dirCut xadj adjncy adjwgt part = 2 * objval ∧
  10 * (nparts * maxPwgt xadj vwgt part nparts) ≤
    balanceFactorNum nparts * totalPwgt xadj vwgt part nparts

/-- Modelled from the spec: the guarantee of `METIS_NodeND` (absent from
the repository) on success, from section 4.6: the returned `perm` is a
permutation of `0..n-1` — every entry lies in `[0, n)` and entries are
pairwise distinct — and `iperm` is its inverse ordering, recorded by the
defining direction `iperm[perm[i]] = i`. -/
def SpecNDOK (n : Nat) (perm iperm : List Int) : Prop :=
  perm.length = n ∧
  iperm.length = n ∧
  (∀ i < n, 0 ≤ perm.getD i 0 ∧ perm.getD i 0 < (n : Int)) ∧
  (∀ i < n, ∀ j < n, perm.getD i 0 = perm.getD j 0 → i = j) ∧
  (∀ i < n, iperm.getD (perm.getD i 0).toNat 0 = (i : Int))

/-- The number of vertices a 3-way separator assignment places in the
separator (label 2): the quantity `counts[2]` that
`TestComputeVertexSeparator` (part_002) compares with the returned
separator size. -/
def sepCount (part : List Int) (n : Nat) : Nat :=
  ((List.range n).filter (fun i => part.getD i 0 = 2)).length

/-- Modelled from the spec: the guarantee of
`METIS_ComputeVertexSeparator` (absent from the repository) on success,
from section 4.6 and the check in `TestComputeVertexSeparator` (part_002):
the assignment labels every vertex 0, 1 or 2 (2 = separator), the returned
separator size is the number of vertices labelled 2, and no adjacency
entry directly joins a vertex labelled 0 to one labelled 1. -/
def SpecSepOK (xadj adjncy : List Int) (sepsize : Int) (part : List Int) : Prop :=
  part.length = nvtxsOf xadj ∧
  (∀ i < nvtxsOf xadj, 0 ≤ part.getD i 0 ∧ part.getD i 0 ≤ 2) ∧
  sepsize = (sepCount part (nvtxsOf xadj) : Int) ∧
  (∀ i < nvtxsOf xadj, ∀ j < (xadj.getD (i + 1) 0).toNat,
    (xadj.getD i 0).toNat ≤ j →
      ¬(part.getD i 0 = 0 ∧ part.getD (adjncy.getD j 0).toNat 0 = 1) ∧
      ¬(part.getD i 0 = 1 ∧ part.getD (adjncy.getD j 0).toNat 0 = 0))

/-- The CSR invariants of the data model (spec section 3): `xadj` is
non-empty, starts at 0, is non-decreasing, ends at `len(adjncy)`, and every
`adjncy` entry is a valid vertex id. -/
def CSRWellFormed (xadj adjncy : List Int) : Prop :=
  1 ≤ xadj.length ∧
  xadj.getD 0 0 = 0 ∧
  (∀ i < nvtxsOf xadj, xadj.getD i 0 ≤ xadj.getD (i + 1) 0) ∧
  xadj.getD (nvtxsOf xadj) 0 = (adjncy.length : Int) ∧
  (∀ j < adjncy.length, 0 ≤ adjncy.getD j 0 ∧ adjncy.getD j 0 < (nvtxsOf xadj : Int))

/-- `v` lists `w` in the CSR adjacency structure: some position `j` of
`adjncy` within `v`'s range holds `w`. -/
def hasEdge (xadj adjncy : List Int) (v w : Nat) : Prop :=
  ∃ j < adjncy.length,
    (xadj.getD v 0).toNat ≤ j ∧ j < (xadj.getD (v + 1) 0).toNat ∧
      (adjncy.getD j 0).toNat = w

/-- A walk in the graph all of whose vertices after the start avoid the
separator label 2: used to state that removing the separator disconnects
the two sides. -/
inductive SepAvoidingWalk (xadj adjncy part : List Int) : Nat → Nat → Prop where
  | refl (u : Nat) : SepAvoidingWalk xadj adjncy part u u
  | step {u v w : Nat} : SepAvoidingWalk xadj adjncy part u v →
      hasEdge xadj adjncy v w → part.getD w 0 ≠ 2 →
      SepAvoidingWalk xadj adjncy part u w

instance (xadj adjncy : List Int) : Decidable (CSRWellFormed xadj adjncy) := by
  unfold CSRWellFormed; infer_instance

instance (xadj adjncy : List Int) (vwgt adjwgt : Option (List Int)) (nparts : Int)
    (part : List Int) (objval : Int) :
    Decidable (SpecEngineOK xadj adjncy vwgt adjwgt nparts part objval) := by
  unfold SpecEngineOK; infer_instance

instance (n : Nat) (perm iperm : List Int) : Decidable (SpecNDOK n perm iperm) := by
  unfold SpecNDOK; infer_instance

instance (xadj adjncy : List Int) (sepsize : Int) (part : List Int) :
    Decidable (SpecSepOK xadj adjncy sepsize part) := by
  unfold SpecSepOK; infer_instance

/-! ## Claim theorems -/

/-- C6, counterexample: graph construction does not fail on a malformed
`xadj`.  `NewGraph` performs no validation at all: applied to
`xadj = [1, 0]` (which violates `xadj[0] = 0`, monotonicity and
`xadj[n] = len(adjncy)`), it succeeds and returns a graph holding the
malformed array unchanged, refuting the claim that construction fails with
an `InvalidGraph` error whenever `xadj` is malformed. -/
theorem newGraph_accepts_malformed_xadj :
    NewGraph [1, 0] [] =
      { Xadj := [1, 0], Adjncy := [], Vwgt := none, Adjwgt := none } ∧
    ¬ CSRWellFormed (NewGraph [1, 0] []).Xadj (NewGraph [1, 0] []).Adjncy := by
  exact ⟨rfl, by decide⟩

/-- C6, amended: `NewGraph` performs no validation and never fails — for
every input, malformed or not, it returns a `Graph` holding exactly the
given arrays with nil weights, and `Degree v = xadj[v+1] - xadj[v]` for
every vertex `v` whose offsets exist. -/
theorem newGraph_unvalidated_degree (xadj adjncy : List Int) (v : Nat)
    (hv : v + 1 < xadj.length) :
    NewGraph xadj adjncy =
      { Xadj := xadj, Adjncy := adjncy, Vwgt := none, Adjwgt := none } ∧
    (NewGraph xadj adjncy).Degree v = xadj.getD (v + 1) 0 - xadj.getD v 0 := by
  exact ⟨rfl, rfl⟩

/-- Witness for C6's amended theorem at a concrete well-formed graph. -/
theorem newGraph_unvalidated_degree_witness :
    NewGraph [0, 2, 4] [1, 0, 0, 1] =
      { Xadj := [0, 2, 4], Adjncy := [1, 0, 0, 1], Vwgt := none, Adjwgt := none } ∧
    (NewGraph [0, 2, 4] [1, 0, 0, 1]).Degree 1 =
      (([0, 2, 4] : List Int).getD 2 0 - ([0, 2, 4] : List Int).getD 1 0) :=
  newGraph_unvalidated_degree [0, 2, 4] [1, 0, 0, 1] 1 (by decide)

/-- C8: on a file whose line for vertex 2 is blank, `ReadGraphFile`
silently drops that vertex, leaving `xadj[3]` at its zero initial value:
the returned `xadj = [0, 1, 2, 0]` is not non-decreasing and does not end
at `len(adjncy) = 2`, violating the CSR invariant. -/
theorem readGraphFile_blank_line_breaks_csr :
    ReadGraphFile [[3, 2], [2], [3], []] =
      .ok { Xadj := [0, 1, 2, 0], Adjncy := [1, 2], Vwgt := none, Adjwgt := none } ∧
    ∃ g, ReadGraphFile [[3, 2], [2], [3], []] = .ok g ∧
      g.Xadj.getD 3 0 = 0 ∧
      ¬(g.Xadj.getD 2 0 ≤ g.Xadj.getD 3 0) ∧
      g.Xadj.getD (nvtxsOf g.Xadj) 0 ≠ (g.Adjncy.length : Int) ∧
      ¬ CSRWellFormed g.Xadj g.Adjncy := by
  refine ⟨rfl, { Xadj := [0, 1, 2, 0], Adjncy := [1, 2], Vwgt := none, Adjwgt := none },
    rfl, rfl, by decide, by decide, by decide⟩

/-- C5: every public operation either succeeds with a complete result or
returns an error with no result — for each of the ten wrappers, whenever
the returned error is non-nil, every returned slice is nil and every
returned scalar (objective value, separator size) is zero. -/
theorem error_implies_empty_result :
    (∀ xadj adjncy nparts ccall,
      (PartGraphRecursive xadj adjncy nparts ccall).err ≠ none →
        (PartGraphRecursive xadj adjncy nparts ccall).part = none ∧
        (PartGraphRecursive xadj adjncy nparts ccall).objval = 0) ∧
    (∀ xadj adjncy nparts ccall,
      (PartGraphKway xadj adjncy nparts ccall).err ≠ none →
        (PartGraphKway xadj adjncy nparts ccall).part = none ∧
        (PartGraphKway xadj adjncy nparts ccall).objval = 0) ∧
    (∀ xadj adjncy vwgt adjwgt nparts ccall,
      (PartGraphRecursiveWeighted xadj adjncy vwgt adjwgt nparts ccall).err ≠ none →
        (PartGraphRecursiveWeighted xadj adjncy vwgt adjwgt nparts ccall).part = none ∧
        (PartGraphRecursiveWeighted xadj adjncy vwgt adjwgt nparts ccall).objval = 0) ∧
    (∀ xadj adjncy vwgt adjwgt nparts ccall,
      (PartGraphKwayWeighted xadj adjncy vwgt adjwgt nparts ccall).err ≠ none →
        (PartGraphKwayWeighted xadj adjncy vwgt adjwgt nparts ccall).part = none ∧
        (PartGraphKwayWeighted xadj adjncy vwgt adjwgt nparts ccall).objval = 0) ∧
    (∀ ne nn eptr eind vwgt vsize ncommon nparts ccall,
      (PartMeshDual ne nn eptr eind vwgt vsize ncommon nparts ccall).err ≠ none →
        (PartMeshDual ne nn eptr eind vwgt vsize ncommon nparts ccall).epart = none ∧
        (PartMeshDual ne nn eptr eind vwgt vsize ncommon nparts ccall).npart = none ∧
        (PartMeshDual ne nn eptr eind vwgt vsize ncommon nparts ccall).objval = 0) ∧
    (∀ ne nn eptr eind vwgt vsize nparts ccall,
      (PartMeshNodal ne nn eptr eind vwgt vsize nparts ccall).err ≠ none →
        (PartMeshNodal ne nn eptr eind vwgt vsize nparts ccall).epart = none ∧
        (PartMeshNodal ne nn eptr eind vwgt vsize nparts ccall).npart = none ∧
        (PartMeshNodal ne nn eptr eind vwgt vsize nparts ccall).objval = 0) ∧
    (∀ xadj adjncy vwgt engine,
      (NodeND xadj adjncy vwgt engine).err ≠ none →
        (NodeND xadj adjncy vwgt engine).perm = none ∧
        (NodeND xadj adjncy vwgt engine).iperm = none) ∧
    (∀ xadj adjncy vwgt engine,
      (ComputeVertexSeparator xadj adjncy vwgt engine).err ≠ none →
        (ComputeVertexSeparator xadj adjncy vwgt engine).part = none ∧
        (ComputeVertexSeparator xadj adjncy vwgt engine).sepsize = 0) ∧
    (∀ ne nn eptr eind ncommon ccall,
      (MeshToDual ne nn eptr eind ncommon ccall).err ≠ none →
        (MeshToDual ne nn eptr eind ncommon ccall).xadj = none ∧
        (MeshToDual ne nn eptr eind ncommon ccall).adjncy = none) ∧
    (∀ ne nn eptr eind ccall,
      (MeshToNodal ne nn eptr eind ccall).err ≠ none →
        (MeshToNodal ne nn eptr eind ccall).xadj = none ∧
        (MeshToNodal ne nn eptr eind ccall).adjncy = none) := by
  refine ⟨?_, ?_, ?_, ?_, ?_, ?_, ?_, ?_, ?_, ?_⟩
  · intro xadj adjncy nparts ccall h
    cases ccall with
    | err s => exact ⟨rfl, rfl⟩
    | ok v => obtain ⟨p, o⟩ := v; exact absurd rfl h
  · intro xadj adjncy nparts ccall h
    cases ccall with
    | err s => exact ⟨rfl, rfl⟩
    | ok v => obtain ⟨p, o⟩ := v; exact absurd rfl h
  · intro xadj adjncy vwgt adjwgt nparts ccall h
    by_cases h1 : vwgtLenBad xadj vwgt = true
    · simp [PartGraphRecursiveWeighted, h1]
    · by_cases h2 : adjwgtLenBad adjncy adjwgt = true
      · simp [PartGraphRecursiveWeighted, h1, h2]
      · cases ccall with
        | err s => simp [PartGraphRecursiveWeighted, h1, h2]
        | ok v =>
          obtain ⟨p, o⟩ := v
          simp [PartGraphRecursiveWeighted, h1, h2] at h
  · intro xadj adjncy vwgt adjwgt nparts ccall h
    by_cases h1 : vwgtLenBad xadj vwgt = true
    · simp [PartGraphKwayWeighted, h1]
    · by_cases h2 : adjwgtLenBad adjncy adjwgt = true
      · simp [PartGraphKwayWeighted, h1, h2]
      · cases ccall with
        | err s => simp [PartGraphKwayWeighted, h1, h2]
        | ok v =>
          obtain ⟨p, o⟩ := v
          simp [PartGraphKwayWeighted, h1, h2] at h
  · intro ne nn eptr eind vwgt vsize ncommon nparts ccall h
    cases ccall with
    | err s => exact ⟨rfl, rfl, rfl⟩
    | ok v => obtain ⟨o, ep, np⟩ := v; exact absurd rfl h
  · intro ne nn eptr eind vwgt vsize nparts ccall h
    cases ccall with
    | err s => exact ⟨rfl, rfl, rfl⟩
    | ok v => obtain ⟨o, ep, np⟩ := v; exact absurd rfl h
  · intro xadj adjncy vwgt engine h
    unfold NodeND at h ⊢
    cases hE : engine (effectiveVwgt xadj vwgt) with
    | err s => exact ⟨rfl, rfl⟩
    | ok v => obtain ⟨p, ip⟩ := v; rw [hE] at h; exact absurd rfl h
  · intro xadj adjncy vwgt engine h
    unfold ComputeVertexSeparator at h ⊢
    cases hE : engine (effectiveVwgt xadj vwgt) with
    | err s => exact ⟨rfl, rfl⟩
    | ok v => obtain ⟨ss, p⟩ := v; rw [hE] at h; exact absurd rfl h
  · intro ne nn eptr eind ncommon ccall h
    cases ccall with
    | err s => exact ⟨rfl, rfl⟩
    | ok v => obtain ⟨x, a⟩ := v; exact absurd rfl h
  · intro ne nn eptr eind ccall h
    cases ccall with
    | err s => exact ⟨rfl, rfl⟩
    | ok v => obtain ⟨x, a⟩ := v; exact absurd rfl h

/-- Witness for C5: each component applied at a concrete erroring call. -/
theorem error_implies_empty_result_witness :
    ((PartGraphRecursive [0] [] 1 (.err (-2))).part = none ∧
     (PartGraphRecursive [0] [] 1 (.err (-2))).objval = 0) ∧
    ((PartGraphKway [0] [] 1 (.err (-3))).part = none ∧
     (PartGraphKway [0] [] 1 (.err (-3))).objval = 0) ∧
    ((PartGraphRecursiveWeighted [0] [] (some [1]) none 1 (.err (-2))).part = none ∧
     (PartGraphRecursiveWeighted [0] [] (some [1]) none 1 (.err (-2))).objval = 0) ∧
    ((PartGraphKwayWeighted [0] [] none (some [1]) 1 (.err (-2))).part = none ∧
     (PartGraphKwayWeighted [0] [] none (some [1]) 1 (.err (-2))).objval = 0) ∧
    ((PartMeshDual 1 1 [0, 1] [0] none none 1 1 (.err (-4))).epart = none ∧
     (PartMeshDual 1 1 [0, 1] [0] none none 1 1 (.err (-4))).npart = none ∧
     (PartMeshDual 1 1 [0, 1] [0] none none 1 1 (.err (-4))).objval = 0) ∧
    ((PartMeshNodal 1 1 [0, 1] [0] none none 1 (.err (-4))).epart = none ∧
     (PartMeshNodal 1 1 [0, 1] [0] none none 1 (.err (-4))).npart = none ∧
     (PartMeshNodal 1 1 [0, 1] [0] none none 1 (.err (-4))).objval = 0) ∧
    ((NodeND [0] [] none (fun _ => .err (-2))).perm = none ∧
     (NodeND [0] [] none (fun _ => .err (-2))).iperm = none) ∧
    ((ComputeVertexSeparator [0] [] none (fun _ => .err (-2))).part = none ∧
     (ComputeVertexSeparator [0] [] none (fun _ => .err (-2))).sepsize = 0) ∧
    ((MeshToDual 1 1 [0, 1] [0] 1 (.err (-2))).xadj = none ∧
     (MeshToDual 1 1 [0, 1] [0] 1 (.err (-2))).adjncy = none) ∧
    ((MeshToNodal 1 1 [0, 1] [0] (.err (-2))).xadj = none ∧
     (MeshToNodal 1 1 [0, 1] [0] (.err (-2))).adjncy = none) := by
  refine ⟨error_implies_empty_result.1 [0] [] 1 (.err (-2)) (by decide),
    error_implies_empty_result.2.1 [0] [] 1 (.err (-3)) (by decide),
    error_implies_empty_result.2.2.1 [0] [] (some [1]) none 1 (.err (-2)) (by decide),
    error_implies_empty_result.2.2.2.1 [0] [] none (some [1]) 1 (.err (-2)) (by decide),
    error_implies_empty_result.2.2.2.2.1 1 1 [0, 1] [0] none none 1 1 (.err (-4)) (by decide),
    error_implies_empty_result.2.2.2.2.2.1 1 1 [0, 1] [0] none none 1 (.err (-4)) (by decide),
    error_implies_empty_result.2.2.2.2.2.2.1 [0] [] none (fun _ => .err (-2)) (by decide),
    error_implies_empty_result.2.2.2.2.2.2.2.1 [0] [] none (fun _ => .err (-2)) (by decide),
    error_implies_empty_result.2.2.2.2.2.2.2.2.1 1 1 [0, 1] [0] 1 (.err (-2)) (by decide),
    error_implies_empty_result.2.2.2.2.2.2.2.2.2 1 1 [0, 1] [0] (.err (-2)) (by decide)⟩

/-- C7: when a non-nil `vwgt` has length different from `len(xadj) - 1`,
or a non-nil `adjwgt` has length different from `len(adjncy)`, both
weighted entry points return an `errors.New` validation error and a nil
partition with zero objective, and the result is independent of the C
call — the partitioner is never invoked. -/
theorem weighted_length_mismatch_rejected (xadj adjncy : List Int)
    (vwgt adjwgt : Option (List Int)) (nparts : Int) (ccall : COutcome (List Int × Int))
    (h : (∃ w, vwgt = some w ∧ (w.length : Int) ≠ (xadj.length : Int) - 1) ∨
         (∃ w, adjwgt = some w ∧ w.length ≠ adjncy.length)) :
    ((PartGraphRecursiveWeighted xadj adjncy vwgt adjwgt nparts ccall).part = none ∧
     (PartGraphRecursiveWeighted xadj adjncy vwgt adjwgt nparts ccall).objval = 0 ∧
     (∃ s, (PartGraphRecursiveWeighted xadj adjncy vwgt adjwgt nparts ccall).err =
        some (.invalidArg s)) ∧
     (∀ ccall', PartGraphRecursiveWeighted xadj adjncy vwgt adjwgt nparts ccall' =
        PartGraphRecursiveWeighted xadj adjncy vwgt adjwgt nparts ccall)) ∧
    ((PartGraphKwayWeighted xadj adjncy vwgt adjwgt nparts ccall).part = none ∧
     (PartGraphKwayWeighted xadj adjncy vwgt adjwgt nparts ccall).objval = 0 ∧
     (∃ s, (PartGraphKwayWeighted xadj adjncy vwgt adjwgt nparts ccall).err =
        some (.invalidArg s)) ∧
     (∀ ccall', PartGraphKwayWeighted xadj adjncy vwgt adjwgt nparts ccall' =
        PartGraphKwayWeighted xadj adjncy vwgt adjwgt nparts ccall)) := by
  by_cases h1 : vwgtLenBad xadj vwgt = true
  · constructor
    · simp [PartGraphRecursiveWeighted, h1]
    · simp [PartGraphKwayWeighted, h1]
  · have h2 : adjwgtLenBad adjncy adjwgt = true := by
      rcases h with ⟨w, hw, hlen⟩ | ⟨w, hw, hlen⟩
      · exact absurd (by simp [vwgtLenBad, hw]; exact hlen) h1
      · simp [adjwgtLenBad, hw]; exact hlen
    constructor
    · simp [PartGraphRecursiveWeighted, h1, h2]
    · simp [PartGraphKwayWeighted, h1, h2]

/-- Witness for C7 at a concrete mismatched `vwgt` (length 2 on a
1-vertex graph). -/
theorem weighted_length_mismatch_rejected_witness :
    ((PartGraphRecursiveWeighted [0, 0] [] (some [1, 2]) none 1 (.ok ([0], 0))).part = none ∧
     (PartGraphRecursiveWeighted [0, 0] [] (some [1, 2]) none 1 (.ok ([0], 0))).objval = 0 ∧
     (∃ s, (PartGraphRecursiveWeighted [0, 0] [] (some [1, 2]) none 1 (.ok ([0], 0))).err =
        some (.invalidArg s)) ∧
     (∀ ccall', PartGraphRecursiveWeighted [0, 0] [] (some [1, 2]) none 1 ccall' =
        PartGraphRecursiveWeighted [0, 0] [] (some [1, 2]) none 1 (.ok ([0], 0)))) ∧
    ((PartGraphKwayWeighted [0, 0] [] (some [1, 2]) none 1 (.ok ([0], 0))).part = none ∧
     (PartGraphKwayWeighted [0, 0] [] (some [1, 2]) none 1 (.ok ([0], 0))).objval = 0 ∧
     (∃ s, (PartGraphKwayWeighted [0, 0] [] (some [1, 2]) none 1 (.ok ([0], 0))).err =
        some (.invalidArg s)) ∧
     (∀ ccall', PartGraphKwayWeighted [0, 0] [] (some [1, 2]) none 1 ccall' =
        PartGraphKwayWeighted [0, 0] [] (some [1, 2]) none 1 (.ok ([0], 0)))) :=
  weighted_length_mismatch_rejected [0, 0] [] (some [1, 2]) none 1 (.ok ([0], 0))
    (Or.inl ⟨[1, 2], rfl, by decide⟩)

/-- C10: `NodeND` and `ComputeVertexSeparator` silently ignore a non-nil
`vwgt` whose length differs from `len(xadj) - 1`: no error is raised, the
nil pointer reaches the C library instead, and the call behaves
identically to the unweighted call for every engine behaviour. -/
theorem mismatched_vwgt_silently_ignored (xadj adjncy : List Int) (w : List Int)
    (h : (w.length : Int) ≠ (xadj.length : Int) - 1) :
    (∀ engine, NodeND xadj adjncy (some w) engine = NodeND xadj adjncy none engine) ∧
    (∀ engine, ComputeVertexSeparator xadj adjncy (some w) engine =
      ComputeVertexSeparator xadj adjncy none engine) := by
  have he : effectiveVwgt xadj (some w) = effectiveVwgt xadj none := by
    simp [effectiveVwgt, h]
  exact ⟨fun engine => by unfold NodeND; rw [he],
         fun engine => by unfold ComputeVertexSeparator; rw [he]⟩

/-- Witness for C10: a 1-vertex graph with a length-2 `vwgt`. -/
theorem mismatched_vwgt_silently_ignored_witness :
    NodeND [0, 0] [] (some [5, 6]) (fun v => .ok ([0], [0])) =
      NodeND [0, 0] [] none (fun v => .ok ([0], [0])) ∧
    ComputeVertexSeparator [0, 0] [] (some [5, 6]) (fun v => .ok (0, [0])) =
      ComputeVertexSeparator [0, 0] [] none (fun v => .ok (0, [0])) :=
  ⟨(mismatched_vwgt_silently_ignored [0, 0] [] [5, 6] (by decide)).1 _,
   (mismatched_vwgt_silently_ignored [0, 0] [] [5, 6] (by decide)).2 _⟩

/-- C1: for a successful cut-objective run of the partitioning engine (as
modelled from the specification and `verifyPart`), the independently
computed edge cut of the returned partition — `CalculateEdgeCut`, which
sums each crossing edge's weight from both endpoints and halves the total —
equals the returned objective value.  The wrappers (`PartGraphRecursive`,
`PartGraphKway` and their weighted variants) return the engine's partition
and objective unchanged on success. -/
theorem edgecut_matches_objective (xadj adjncy : List Int)
    (vwgt adjwgt : Option (List Int)) (nparts : Int) (part : List Int) (objval : Int)
    (h : SpecEngineOK xadj adjncy vwgt adjwgt nparts part objval) :
    CalculateEdgeCut { Xadj := xadj, Adjncy := adjncy, Vwgt := vwgt, Adjwgt := adjwgt } part
      = objval := by
  show Int.tdiv (dirCut xadj adjncy adjwgt part) 2 = objval
  rw [h.2.2.2.2.1]
  exact Int.mul_tdiv_cancel_left objval (by norm_num)

/-- Witness for C1 on a 4-cycle split into two adjacent pairs (cut 2). -/
theorem edgecut_matches_objective_witness :
    CalculateEdgeCut ⟨[0, 2, 4, 6, 8], [1, 3, 0, 2, 1, 3, 0, 2], none, none⟩ [0, 0, 1, 1] = 2 :=
  edgecut_matches_objective [0, 2, 4, 6, 8] [1, 3, 0, 2, 1, 3, 0, 2] none none 2
    [0, 0, 1, 1] 2 (by decide)

/-- C3: for a successful run of the partitioning engine (as modelled from
the specification), every vertex's part id lies in `[0, nparts)`, and when
the vertex count is at least `2·nparts` every part id in `[0, nparts)` is
assigned to at least one vertex. -/
theorem partition_ids_in_range_and_cover (xadj adjncy : List Int)
    (vwgt adjwgt : Option (List Int)) (nparts : Int) (part : List Int) (objval : Int)
    (h : SpecEngineOK xadj adjncy vwgt adjwgt nparts part objval) :
    (∀ i < nvtxsOf xadj, 0 ≤ part.getD i 0 ∧ part.getD i 0 < nparts) ∧
    (2 * nparts ≤ (nvtxsOf xadj : Int) →
      ∀ p : Int, 0 ≤ p → p < nparts → ∃ i < nvtxsOf xadj, part.getD i 0 = p) := by
  refine ⟨h.2.2.1, fun hn p hp0 hpn => ?_⟩
  have hplt : p.toNat < nparts.toNat := by omega
  obtain ⟨i, hi, hpi⟩ := h.2.2.2.1 hn p.toNat hplt
  exact ⟨i, hi, by rw [hpi]; omega⟩

/-- Witness for C3 on the 4-cycle instance. -/
theorem partition_ids_in_range_and_cover_witness :
    (∀ i < nvtxsOf [0, 2, 4, 6, 8],
      0 ≤ ([0, 0, 1, 1] : List Int).getD i 0 ∧ ([0, 0, 1, 1] : List Int).getD i 0 < 2) ∧
    (2 * 2 ≤ (nvtxsOf [0, 2, 4, 6, 8] : Int) →
      ∀ p : Int, 0 ≤ p → p < 2 →
        ∃ i < nvtxsOf [0, 2, 4, 6, 8], ([0, 0, 1, 1] : List Int).getD i 0 = p) :=
  partition_ids_in_range_and_cover [0, 2, 4, 6, 8] [1, 3, 0, 2, 1, 3, 0, 2] none none 2
    [0, 0, 1, 1] 2 (by decide)

/-- C4: for a successful run with uniform target fractions (as modelled
from the specification and the float comparison of `verifyPart`, taken as
an exact rational), the heaviest part weighs at most
`(1 + tolerance) · (total_weight / nparts)`, with tolerance 0.10 by
default and 0.20 when `nparts ≥ 16`. -/
theorem partition_balance_bound (xadj adjncy : List Int)
    (vwgt adjwgt : Option (List Int)) (nparts : Int) (part : List Int) (objval : Int)
    (h : SpecEngineOK xadj adjncy vwgt adjwgt nparts part objval) :
    (maxPwgt xadj vwgt part nparts : ℚ) ≤
      (1 + tolerance nparts) * ((totalPwgt xadj vwgt part nparts : ℚ) / (nparts : ℚ)) := by
  have hb := h.2.2.2.2.2
  have hn0 : (0 : ℚ) < (nparts : ℚ) := by
    exact_mod_cast lt_of_lt_of_le zero_lt_one h.1
  have htol : 1 + tolerance nparts = (balanceFactorNum nparts : ℚ) / 10 := by
    unfold tolerance balanceFactorNum
    by_cases h16 : (16 : Int) ≤ nparts <;> simp [h16] <;> norm_num
  rw [htol, div_mul_div_comm, le_div_iff₀ (mul_pos (by norm_num : (0 : ℚ) < 10) hn0)]
  have hcast : ((10 * (nparts * maxPwgt xadj vwgt part nparts) : Int) : ℚ) ≤
      ((balanceFactorNum nparts * totalPwgt xadj vwgt part nparts : Int) : ℚ) :=
    Int.cast_le.mpr hb
  push_cast at hcast
  linarith

/-- Witness for C4 on the 4-cycle instance (each part weighs 2, bound
`1.1 · (4/2) = 2.2`). -/
theorem partition_balance_bound_witness :
    (maxPwgt [0, 2, 4, 6, 8] none [0, 0, 1, 1] 2 : ℚ) ≤
      (1 + tolerance 2) * ((totalPwgt [0, 2, 4, 6, 8] none [0, 0, 1, 1] 2 : ℚ) /
        ((2 : Int) : ℚ)) :=
  partition_balance_bound [0, 2, 4, 6, 8] [1, 3, 0, 2, 1, 3, 0, 2] none none 2
    [0, 0, 1, 1] 2 (by decide)

/-- C2: for a successful `NodeND` call whose returned `perm` is a
permutation of `0..n-1` with `iperm` its inverse ordering (the modelled
engine guarantee `SpecNDOK` records only the defining direction
`iperm[perm[i]] = i`), the two arrays are mutually inverse:
`perm[iperm[i]] = i` and `iperm[perm[i]] = i` for every `i` in `[0, n)`.
The converse direction is recovered by finiteness: an injective
self-map of `Fin n` is surjective. -/
theorem nodeND_perm_iperm_inverse (xadj adjncy : List Int) (vwgt : Option (List Int))
    (engine : Option (List Int) → COutcome (List Int × List Int)) (perm iperm : List Int)
    (hcall : NodeND xadj adjncy vwgt engine =
      { perm := some perm, iperm := some iperm, err := none })
    (h : SpecNDOK (nvtxsOf xadj) perm iperm) :
    ∀ i < nvtxsOf xadj,
      perm.getD (iperm.getD i 0).toNat 0 = (i : Int) ∧
      iperm.getD (perm.getD i 0).toNat 0 = (i : Int) := by
  obtain ⟨hpl, hil, hrange, hinj, hleft⟩ := h
  intro i hi
  refine ⟨?_, hleft i hi⟩
  have hF : Function.Surjective (fun a : Fin (nvtxsOf xadj) =>
      (⟨(perm.getD a 0).toNat, by have := hrange a a.isLt; omega⟩ : Fin (nvtxsOf xadj))) := by
    rw [← Finite.injective_iff_surjective]
    intro a b hab
    have ha := hrange a a.isLt
    have hb := hrange b b.isLt
    have hT : (perm.getD a 0).toNat = (perm.getD b 0).toNat := congrArg Fin.val hab
    exact Fin.ext (hinj a a.isLt b b.isLt (by omega))
  obtain ⟨a, ha⟩ := hF ⟨i, hi⟩
  have hav : (perm.getD a 0).toNat = i := congrArg Fin.val ha
  have hpa : perm.getD (a : Nat) 0 = (i : Int) := by
    have := hrange a a.isLt; omega
  have hia : iperm.getD i 0 = ((a : Nat) : Int) := by
    have := hleft a a.isLt
    rw [hav] at this
    exact this
  rw [hia]
  have htn : (((a : Nat) : Int)).toNat = (a : Nat) := by omega
  rw [htn, hpa]

/-- Witness for C2 on a 3-vertex graph with `perm = [2, 0, 1]`,
`iperm = [1, 2, 0]`. -/
theorem nodeND_perm_iperm_inverse_witness :
    ([2, 0, 1] : List Int).getD (([1, 2, 0] : List Int).getD 1 0).toNat 0 = ((1 : Nat) : Int) ∧
    ([1, 2, 0] : List Int).getD (([2, 0, 1] : List Int).getD 1 0).toNat 0 = ((1 : Nat) : Int) :=
  nodeND_perm_iperm_inverse [0, 0, 0, 0] [] none (fun v => .ok ([2, 0, 1], [1, 2, 0]))
    [2, 0, 1] [1, 2, 0] rfl (by decide) 1 (by decide)

/-- The separator-correctness property claimed for C9, stated over a
3-way assignment: every label is 0, 1 or 2; the separator size equals the
number of vertices labelled 2; no edge directly joins a 0-vertex to a
1-vertex; and, consequently, no walk avoiding separator vertices connects
a 0-vertex to a 1-vertex — removing the separator disconnects the sides. -/
def SepClaim (xadj adjncy : List Int) (sepsize : Int) (part : List Int) : Prop :=
  (∀ i < nvtxsOf xadj, part.getD i 0 = 0 ∨ part.getD i 0 = 1 ∨ part.getD i 0 = 2) ∧
  sepsize = (sepCount part (nvtxsOf xadj) : Int) ∧
  (∀ u < nvtxsOf xadj, ∀ v, hasEdge xadj adjncy u v →
    ¬(part.getD u 0 = 0 ∧ part.getD v 0 = 1) ∧
    ¬(part.getD u 0 = 1 ∧ part.getD v 0 = 0)) ∧
  (∀ u < nvtxsOf xadj, ∀ v, part.getD u 0 = 0 → part.getD v 0 = 1 →
    ¬ SepAvoidingWalk xadj adjncy part u v)

/-- C9: for a successful `ComputeVertexSeparator` call on a well-formed
CSR graph, with the engine guarantee modelled from the specification
(`SpecSepOK`), the returned assignment places each vertex in `{0, 1, 2}`,
the returned separator size counts the vertices assigned 2, and the
separator disconnects the two sides: no edge — and hence no
separator-avoiding walk — joins a vertex assigned 0 to one assigned 1. -/
theorem vertex_separator_separates (xadj adjncy : List Int) (vwgt : Option (List Int))
    (engine : Option (List Int) → COutcome (Int × List Int)) (sepsize : Int) (part : List Int)
    (hcall : ComputeVertexSeparator xadj adjncy vwgt engine =
      { sepsize := sepsize, part := some part, err := none })
    (hwf : CSRWellFormed xadj adjncy)
    (h : SpecSepOK xadj adjncy sepsize part) :
    SepClaim xadj adjncy sepsize part := by
  obtain ⟨hlen, hrange, hcount, hnoedge⟩ := h
  obtain ⟨hx1, hx0, hmono, hxlast, hentries⟩ := hwf
  have hedge01 : ∀ u < nvtxsOf xadj, ∀ v, hasEdge xadj adjncy u v →
      ¬(part.getD u 0 = 0 ∧ part.getD v 0 = 1) ∧
      ¬(part.getD u 0 = 1 ∧ part.getD v 0 = 0) := by
    intro u hu v he
    obtain ⟨j, hj, hjs, hje, hjv⟩ := he
    have := hnoedge u hu j hje hjs
    rw [hjv] at this
    exact this
  refine ⟨fun i hi => by have := hrange i hi; omega, hcount, hedge01, ?_⟩
  intro u hu v hu0 hv1 hwalk
  have key : ∀ t, SepAvoidingWalk xadj adjncy part u t →
      t < nvtxsOf xadj ∧ part.getD t 0 = 0 := by
    intro t hw
    induction hw with
    | refl => exact ⟨hu, hu0⟩
    | @step y z hsub hedge hne ih =>
      obtain ⟨hylt, hy0⟩ := ih
      obtain ⟨j, hj, hjs, hje, hjv⟩ := hedge
      have hent := hentries j hj
      have hzlt : z < nvtxsOf xadj := by omega
      have hzr := hrange z hzlt
      have hno := hnoedge y hylt j hje hjs
      rw [hjv] at hno
      have hz1 : part.getD z 0 ≠ 1 := fun h1 => hno.1 ⟨hy0, h1⟩
      exact ⟨hzlt, by omega⟩
  have := (key v hwalk).2
  omega

/-- Witness for C9 on the path graph 0 - 1 - 2 with separator {1}. -/
theorem vertex_separator_separates_witness :
    SepClaim [0, 1, 3, 4] [1, 0, 2, 1] 1 [0, 2, 1] :=
  vertex_separator_separates [0, 1, 3, 4] [1, 0, 2, 1] none (fun v => .ok (1, [0, 2, 1]))
    1 [0, 2, 1] rfl (by decide) (by decide)

end GoMetis
